import Mathlib

/-!
Shallow embedding of the ToRTOS kernel core (scheduler, tick/timer engine,
IPC primitives) and proofs about the properties stated in its design
document.  Machine integers are modelled as Nat with explicit reduction
modulo 2^w where the C code can overflow; C structs become Lean structures;
global state becomes explicit state records threaded through the functions.

Configuration constants are taken from ToRTOS_Config.h of the stm32f411ce
board support package:
  TO_LOWER_PRIORITY_NUM_HIGHER_PRIORITY = 0  (larger number = higher priority)
  TO_THREAD_PRIORITY_MAX = 32
  TIMER_USE_OVERFLOW_LIST = 1 (timer.c)
-/

namespace ToRTOS

/-- Status codes of tdef.h (t_status_t). -/
inductive T_Status where
  | T_OK
  | T_ERR
  | T_TIMEOUT
  | T_BUSY
  | T_INVALID
  | T_NULL
  | T_DELETED
  | T_UNSUPPORTED
deriving DecidableEq, Repr

export T_Status (T_OK T_ERR T_TIMEOUT T_BUSY T_INVALID T_NULL T_DELETED T_UNSUPPORTED)

/-- 2^32, the modulus of the 32-bit unsigned arithmetic used throughout. -/
def U32_MOD : Nat := 4294967296

/-- 2^16, the modulus of t_uint16_t fields (e.g. the mutex recursion count). -/
def U16_MOD : Nat := 65536

/-! ## 4.B Tick clock: get_tick_diff (timer.c, TIMER_USE_OVERFLOW_LIST branch)

C source:
  if(end_tick >= start_tick)
      return end_tick - start_tick;
  return end_tick + 0xFFFFFFFFUL - start_tick;

All arithmetic is 32-bit unsigned.  In the wrap branch, with
end_tick < start_tick < 2^32, the C expression evaluates (without any
intermediate wrap on a 32-bit unsigned long) to
end_tick + (2^32 - 1) - start_tick, which is below 2^32. -/
def get_tick_diff (start_tick end_tick : Nat) : Nat :=
  if end_tick ≥ start_tick then
    end_tick - start_tick
  else
    (end_tick + 0xFFFFFFFF - start_tick) % U32_MOD

/-! ## 4.C Timer engine: t_timer_check (timer.c)

A software timer is modelled by its identity (standing for the
callback/argument pair) and its absolute expiry tick; the level-0 list of
armed timers becomes a Lean list sorted the way t_timer_start keeps it.  -/

structure TTimer where
  tid : Nat
  timeout_tick : Nat
deriving DecidableEq, Repr

/-- The collection loop of t_timer_check: repeatedly inspect the head of the
current timer list; while it has expired (s_tick >= timeout_tick) detach it
and run t_list_insert_after(&expired_list, node), which places the node
directly behind the expired-list sentinel, i.e. at the FRONT of the expired
list.  The first unexpired head stops the walk.  Returns the expired list
contents (in list order) and the remaining current list. -/
def collectExpired (now : Nat) : List TTimer → List TTimer → List TTimer × List TTimer
  | [], acc => (acc, [])
  | t :: rest, acc =>
    if now ≥ t.timeout_tick then collectExpired now rest (t :: acc)
    else (acc, t :: rest)

/-- t_timer_check: collect the expired timers, then pop the expired list from
its head, invoking each callback.  The first component is the sequence of
callback invocations (by timer identity, in invocation order); the second is
the current list left behind. -/
def t_timer_check (now : Nat) (cur : List TTimer) : List Nat × List TTimer :=
  let r := collectExpired now cur []
  (r.1.map (·.tid), r.2)

/-- The expired prefix of the current list, in list order: what the design
document says the callback sequence should be. -/
def expiredPrefix (now : Nat) (cur : List TTimer) : List TTimer :=
  cur.takeWhile (fun t => decide (t.timeout_tick ≤ now))

theorem collectExpired_eq (now : Nat) :
    ∀ (cur acc : List TTimer),
      collectExpired now cur acc =
        ((expiredPrefix now cur).reverse ++ acc,
          cur.dropWhile (fun t => decide (t.timeout_tick ≤ now))) := by
  intro cur
  induction cur with
  | nil => intro acc; simp [collectExpired, expiredPrefix]
  | cons t rest ih =>
    intro acc
    by_cases h : now ≥ t.timeout_tick
    · simp [collectExpired, h, expiredPrefix, List.takeWhile_cons, List.dropWhile_cons,
        Nat.le_of_lt, ih]
    · have h2 : ¬ t.timeout_tick ≤ now := h
      simp [collectExpired, h, expiredPrefix, List.takeWhile_cons, List.dropWhile_cons, h2]

/-- C2: refuted.  t_timer_check invokes the collected callbacks in the
REVERSE of detach order: detaching inserts each node directly after the
expired-list sentinel (t_list_insert_after), so the node detached last is
popped first by the dispatch loop.  The first conjunct states the general
behaviour; the rest evaluates the code on the failing input of two timers
with expiries 1 and 2 at tick 2: the callbacks run as timer 2 then timer 1,
not in the increasing-expiry order 1, 2 that the claim (and the code's own
FIFO comment) demands. -/
theorem t_timer_check_dispatch_reversed :
    (∀ (now : Nat) (cur : List TTimer),
        (t_timer_check now cur).1 = ((expiredPrefix now cur).map (·.tid)).reverse) ∧
    t_timer_check 2 [⟨1, 1⟩, ⟨2, 2⟩] = ([2, 1], []) ∧
    ([2, 1] : List Nat) ≠ [1, 2] := by
  refine ⟨?_, by decide, by decide⟩
  intro now cur
  simp [t_timer_check, collectExpired_eq, List.map_reverse]

/-- C3: refuted at start_tick = 1, end_tick = 0.  The unsigned modular
difference (end - start) mod 2^32 is 4294967295, but get_tick_diff adds
0xFFFFFFFF = 2^32 - 1 instead of 2^32 in the wrap branch and returns
4294967294, one tick short.  (With TIMER_USE_OVERFLOW_LIST = 0 the same
function computes (t_int32_t)(end - start), which IS the modular
difference, so the two build variants of the code disagree.) -/
theorem get_tick_diff_wrap_off_by_one :
    get_tick_diff 1 0 = 4294967294 ∧
    (0 + U32_MOD - 1) % U32_MOD = 4294967295 ∧
    get_tick_diff 1 0 ≠ (0 + U32_MOD - 1) % U32_MOD := by
  refine ⟨by decide, by decide, by decide⟩

/-! ## 4.D / 4.E Scheduler and thread lifecycle (scheduler.c, thread.c)

Thread control blocks keep the fields the scheduler claims are about; the
architecture-opaque fields (psp, entry, arg, stack base/size, the embedded
timer) do not influence any ready-queue or bitmap operation and are left
out of the record.  Global scheduler state becomes the Sched record,
threaded explicitly.  Thread identities are Nat (stable handles standing
for the thread objects' addresses). -/

/-- Thread status flag constants of tdef.h. -/
def TO_THREAD_READY : Nat := 0x01
def TO_THREAD_SUSPEND : Nat := 0x02
def TO_THREAD_TERMINATED : Nat := 0x08
def TO_THREAD_RUNNING : Nat := 0x10
def TO_THREAD_DELETED : Nat := 0x20
def TO_THREAD_INIT : Nat := 0x80

def TO_THREAD_PRIORITY_MAX : Nat := 32

/-- DUMMY_PRIORITY (tdef.h): sentinel meaning "no boost recorded". -/
def DUMMY_PRIORITY : Nat := 0xFF

structure Thread where
  current_priority : Nat
  init_priority : Nat
  number_mask : Nat
  init_tick : Nat
  remaining_tick : Nat
  status : Nat
deriving DecidableEq, Repr

/-- Pointwise update of a total map indexed by thread id / priority. -/
def upd {α : Type} (f : Nat → α) (k : Nat) (v : α) : Nat → α :=
  fun n => if n = k then v else f n

/-- The process-wide scheduler state of scheduler.c:
t_thread_ready_lists (per-priority queues, head first), the ready bitmap
t_thread_ready_priority_group, t_cur_num_of_ready_tasks (a t_uint8_t),
t_schedulue_suspend (a t_uint32_t), t_current_thread and
t_current_priority; plus the thread objects themselves. -/
structure Sched where
  threads : Nat → Thread
  ready : Nat → List Nat
  group : Nat
  nready : Nat
  suspendCount : Nat
  current : Option Nat
  current_priority : Nat

/-- t_sched_insert_thread: append to the tail of the queue for the thread's
current priority (t_list_insert_before on the sentinel), OR its
number_mask into the ready group, bump the ready count. -/
def t_sched_insert_thread (s : Sched) (tid : Nat) : Sched :=
  let th := s.threads tid
  { s with
    ready := upd s.ready th.current_priority (s.ready th.current_priority ++ [tid]),
    group := s.group ||| th.number_mask,
    nready := (s.nready + 1) % 256 }

/-- t_sched_remove_thread: t_list_delete detaches the node from whichever
list holds it; then, if the ready list AT THE THREAD'S CURRENT PRIORITY is
empty, clear the bit given by the thread's number_mask (32-bit
group &= ~mask); decrement the ready count (t_uint8_t). -/
def t_sched_remove_thread (s : Sched) (tid : Nat) : Sched :=
  let th := s.threads tid
  let ready2 := fun p => (s.ready p).erase tid
  { s with
    ready := ready2,
    group :=
      if ready2 th.current_priority = [] then
        s.group &&& (0xFFFFFFFF ^^^ th.number_mask)
      else s.group,
    nready := (s.nready + 255) % 256 }

/-- t_thread_ctrl with TO_THREAD_SET_PRIORITY (thread.c): store the new
current priority and rebuild number_mask = 1UL << current_priority.
Nothing else changes; in particular the thread is not re-queued. -/
def t_thread_set_priority (threads : Nat → Thread) (tid pr : Nat) : Nat → Thread :=
  upd threads tid
    { threads tid with current_priority := pr, number_mask := 1 <<< pr }

/-- Body of t_thread_startup past the argument checks: reset
current_priority to init_priority, mark READY, reload the slice, OR the
(not recomputed) number_mask into the group and append to the ready list
at the (new) current priority. -/
def t_thread_startup_body (s : Sched) (tid : Nat) : Sched :=
  let th := s.threads tid
  let th2 := { th with
    current_priority := th.init_priority,
    status := TO_THREAD_READY,
    remaining_tick := th.init_tick }
  { s with
    threads := upd s.threads tid th2,
    group := s.group ||| th2.number_mask,
    ready := upd s.ready th2.current_priority (s.ready th2.current_priority ++ [tid]) }

/-- t_thread_startup: T_NULL for a null thread pointer, T_ERR for a DELETED
thread, otherwise run the body and return T_OK. -/
def t_thread_startup (tid : Option Nat) (s : Sched) : T_Status × Sched :=
  match tid with
  | none => (T_NULL, s)
  | some t =>
    if (s.threads t).status = TO_THREAD_DELETED then (T_ERR, s)
    else (T_OK, t_thread_startup_body s t)

/-- __t_fls (cpuport.c, TO_LOWER_PRIORITY_NUM_HIGHER_PRIORITY = 0 branch):
32 - CLZ(value) for a non-zero 32-bit value, i.e. the 1-based index of the
highest set bit; 0 when the input is 0. -/
def t_fls (n : Nat) : Nat :=
  (List.range 32).foldl (fun acc i => if n.testBit i then i + 1 else acc) 0

/-- get_highest_ready_priority (scheduler.c): __t_fls(group) - 1 computed
in 32-bit unsigned arithmetic, so an empty group yields 0xFFFFFFFF. -/
def get_highest_ready_priority (g : Nat) : Nat :=
  (t_fls g + (U32_MOD - 1)) % U32_MOD

/-- The tail of t_sched_switch once a distinct next thread is chosen:
demote a RUNNING previous thread to READY, promote next to RUNNING,
record the new current thread and priority. -/
def switchTo (s : Sched) (next : Nat) : Sched :=
  let s1 :=
    match s.current with
    | some prev =>
      if (s.threads prev).status = TO_THREAD_RUNNING then
        let prevTh := s.threads prev
        { s with threads := upd s.threads prev { prevTh with status := TO_THREAD_READY } }
      else s
    | none => s
  let nextTh := s1.threads next
  { s1 with
    current := some next,
    threads := upd s1.threads next { nextTh with status := TO_THREAD_RUNNING },
    current_priority := nextTh.current_priority }

/-- t_sched_switch: no-op while the suspend counter is non-zero; otherwise
pick the head of the highest non-empty priority queue, and if it differs
from the current thread switch to it.  (The empty-list match arm is
unreachable under the ready-bitmap invariant: there the C code would
misread the list sentinel as a thread.) -/
def t_sched_switch (s : Sched) : Sched :=
  if s.suspendCount ≠ 0 then s
  else
    let hp := get_highest_ready_priority s.group
    if TO_THREAD_PRIORITY_MAX ≤ hp then s
    else
      match s.ready hp with
      | [] => s
      | next :: _ =>
        if s.current = some next then s
        else switchTo s next

/-- t_sched_suspend: t_schedulue_suspend++ (32-bit). -/
def t_sched_suspend (s : Sched) : Sched :=
  { s with suspendCount := (s.suspendCount + 1) % U32_MOD }

/-- t_sched_resume: t_schedulue_suspend-- (32-bit, no underflow guard);
if the counter reached 0 and ready tasks exist, call t_sched_switch. -/
def t_sched_resume (s : Sched) : Sched :=
  let s1 := { s with suspendCount := (s.suspendCount + (U32_MOD - 1)) % U32_MOD }
  if s1.suspendCount = 0 then
    if 0 < s1.nready then t_sched_switch s1 else s1
  else s1

/-- The ready-list rewiring of t_thread_rotate_same_prio: t_list_delete
detaches the current thread from its list, t_list_insert_before on the
sentinel re-appends it at the tail of its priority queue. -/
def rotateReady (s : Sched) (cur : Nat) : Nat → List Nat :=
  let p := (s.threads cur).current_priority
  let ready2 := fun q => (s.ready q).erase cur
  upd ready2 p (ready2 p ++ [cur])

/-- t_thread_rotate_same_prio: if fewer than two threads sit at the current
thread's priority, return; otherwise detach the current thread from its
list and append it at the tail of its priority queue, then t_sched_switch.
(The C code dereferences t_current_thread; it is only called once a
thread runs, so the none arm keeps the state.) -/
def t_thread_rotate_same_prio (s : Sched) : Sched :=
  match s.current with
  | none => s
  | some cur =>
    if (s.ready (s.threads cur).current_priority).length ≤ 1 then s
    else t_sched_switch { s with ready := rotateReady s cur }

/-! ### The scheduler-operation machine of claim C1 -/

inductive SchedOp where
  | insert (tid : Nat)
  | remove (tid : Nat)
  | startup (tid : Nat)
  | rotate
  | setPrio (tid : Nat) (pr : Nat)
deriving DecidableEq, Repr

def schedStep (s : Sched) : SchedOp → Sched
  | .insert tid => t_sched_insert_thread s tid
  | .remove tid => t_sched_remove_thread s tid
  | .startup tid => (t_thread_startup (some tid) s).2
  | .rotate => t_thread_rotate_same_prio s
  | .setPrio tid pr => { s with threads := t_thread_set_priority s.threads tid pr }

def schedRun (s : Sched) : List SchedOp → Sched
  | [] => s
  | op :: ops => schedRun (schedStep s op) ops

/-- A thread id that is linked in no ready list. -/
def Unlinked (s : Sched) (tid : Nat) : Prop :=
  ∀ p < TO_THREAD_PRIORITY_MAX, tid ∉ s.ready p

instance (s : Sched) (tid : Nat) : Decidable (Unlinked s tid) := by
  unfold Unlinked; infer_instance

/-- Structural well-formedness of the scheduler state: a queued thread sits
in the list of its own current priority, number_mask mirrors
current_priority, priorities are in range, the queues hold no duplicates,
and only priorities below TO_THREAD_PRIORITY_MAX have queues. -/
def SchedWF (s : Sched) : Prop :=
  (∀ t p, t ∈ s.ready p → (s.threads t).current_priority = p) ∧
  (∀ t, (s.threads t).number_mask = 1 <<< (s.threads t).current_priority) ∧
  (∀ t, (s.threads t).current_priority < TO_THREAD_PRIORITY_MAX) ∧
  (∀ t, (s.threads t).init_priority < TO_THREAD_PRIORITY_MAX) ∧
  (∀ p, (s.ready p).Nodup) ∧
  (∀ p, TO_THREAD_PRIORITY_MAX ≤ p → s.ready p = [])

/-- The ready-bitmap invariant of the design document: bit p of the ready
group is set iff the ready list at priority p is non-empty. -/
def SchedInv (s : Sched) : Prop :=
  ∀ p < TO_THREAD_PRIORITY_MAX, (s.group.testBit p ↔ s.ready p ≠ [])

/-- Usage discipline under which the operations preserve the invariant:
threads are inserted or started only while unlinked, started threads are
at their initial priority (startup does not rebuild number_mask), and
TO_THREAD_SET_PRIORITY is applied only to threads not sitting in a ready
list. -/
def ValidOp (s : Sched) : SchedOp → Prop
  | .insert tid => Unlinked s tid
  | .remove _ => True
  | .startup tid =>
    Unlinked s tid ∧
      (s.threads tid).current_priority = (s.threads tid).init_priority
  | .rotate => True
  | .setPrio tid pr => Unlinked s tid ∧ pr < TO_THREAD_PRIORITY_MAX

instance (s : Sched) (op : SchedOp) : Decidable (ValidOp s op) := by
  cases op <;> (unfold ValidOp; infer_instance)

def ValidSeq : Sched → List SchedOp → Prop
  | _, [] => True
  | s, op :: ops => ValidOp s op ∧ ValidSeq (schedStep s op) ops

instance instDecidableValidSeq (s : Sched) (ops : List SchedOp) :
    Decidable (ValidSeq s ops) :=
  match ops with
  | [] => .isTrue trivial
  | op :: rest =>
    have : Decidable (ValidSeq (schedStep s op) rest) :=
      instDecidableValidSeq (schedStep s op) rest
    inferInstanceAs (Decidable (_ ∧ _))

/-! ### Helper lemmas: map updates and 32-bit mask arithmetic -/

theorem upd_same {α : Type} (f : Nat → α) (k : Nat) (v : α) : upd f k v k = v := by
  simp [upd]

theorem upd_ne {α : Type} (f : Nat → α) (k n : Nat) (v : α) (h : n ≠ k) :
    upd f k v n = f n := by
  simp [upd, h]

theorem shiftLeft_one_eq_two_pow (p : Nat) : 1 <<< p = 2 ^ p := by
  simp [Nat.shiftLeft_eq]

theorem testBit_ones32 : ∀ q < 32, Nat.testBit 0xFFFFFFFF q = true := by decide

theorem testBit_set_mask (g p q : Nat) :
    (g ||| 2 ^ p).testBit q = (g.testBit q || decide (p = q)) := by
  rw [Nat.testBit_lor]
  by_cases h : p = q
  · subst h; simp
  · simp [h, Nat.testBit_two_pow_of_ne h]

theorem testBit_clear_mask (g p q : Nat) (hq : q < 32) :
    (g &&& (0xFFFFFFFF ^^^ 2 ^ p)).testBit q = (g.testBit q && !decide (p = q)) := by
  rw [Nat.testBit_land, Nat.testBit_xor]
  have h1 : Nat.testBit 0xFFFFFFFF q = true := testBit_ones32 q hq
  by_cases h : p = q
  · subst h; simp [h1]
  · simp [h1, h, Nat.testBit_two_pow_of_ne h]

/-! ### t_sched_switch only moves the RUNNING marker

The context-switch path changes thread statuses, the current pointer and
the cached current priority; the ready lists, the bitmap, the suspend
counter and the priority/mask fields of every thread are untouched. -/

theorem switchTo_ready (s : Sched) (next : Nat) : (switchTo s next).ready = s.ready := by
  unfold switchTo
  match h : s.current with
  | none => simp [h]
  | some prev => by_cases hr : (s.threads prev).status = TO_THREAD_RUNNING <;> simp [h, hr]

theorem switchTo_group (s : Sched) (next : Nat) : (switchTo s next).group = s.group := by
  unfold switchTo
  match h : s.current with
  | none => simp [h]
  | some prev => by_cases hr : (s.threads prev).status = TO_THREAD_RUNNING <;> simp [h, hr]

theorem switchTo_suspendCount (s : Sched) (next : Nat) :
    (switchTo s next).suspendCount = s.suspendCount := by
  unfold switchTo
  match h : s.current with
  | none => simp [h]
  | some prev => by_cases hr : (s.threads prev).status = TO_THREAD_RUNNING <;> simp [h, hr]

theorem switchTo_nready (s : Sched) (next : Nat) : (switchTo s next).nready = s.nready := by
  unfold switchTo
  match h : s.current with
  | none => simp [h]
  | some prev => by_cases hr : (s.threads prev).status = TO_THREAD_RUNNING <;> simp [h, hr]

theorem switchTo_thread_fields (s : Sched) (next t : Nat) :
    ((switchTo s next).threads t).current_priority = (s.threads t).current_priority ∧
    ((switchTo s next).threads t).number_mask = (s.threads t).number_mask ∧
    ((switchTo s next).threads t).init_priority = (s.threads t).init_priority := by
  unfold switchTo
  match h : s.current with
  | none =>
    by_cases ht : t = next <;> simp [h, upd, ht]
  | some prev =>
    by_cases hnp : next = prev
    · subst hnp
      by_cases hr : (s.threads next).status = TO_THREAD_RUNNING <;>
        by_cases ht : t = next <;>
          simp [h, hr, upd, ht]
    · by_cases hr : (s.threads prev).status = TO_THREAD_RUNNING <;>
        by_cases ht : t = next <;> by_cases hp : t = prev <;>
          simp_all [upd]

theorem t_sched_switch_eq_or (s : Sched) :
    t_sched_switch s = s ∨ ∃ next, t_sched_switch s = switchTo s next := by
  unfold t_sched_switch
  by_cases h1 : s.suspendCount ≠ 0
  · left; simp [h1]
  · by_cases h2 : TO_THREAD_PRIORITY_MAX ≤ get_highest_ready_priority s.group
    · left; simp [h1, h2]
    · cases h3 : s.ready (get_highest_ready_priority s.group) with
      | nil => left; simp [h1, h2, h3]
      | cons next rest =>
        by_cases h4 : s.current = some next
        · left; simp [h1, h2, h3, h4]
        · right; exact ⟨next, by simp [h1, h2, h3, h4]⟩

theorem t_sched_switch_ready (s : Sched) : (t_sched_switch s).ready = s.ready := by
  rcases t_sched_switch_eq_or s with h | ⟨next, h⟩ <;> rw [h]
  exact switchTo_ready s next

theorem t_sched_switch_group (s : Sched) : (t_sched_switch s).group = s.group := by
  rcases t_sched_switch_eq_or s with h | ⟨next, h⟩ <;> rw [h]
  exact switchTo_group s next

theorem t_sched_switch_suspendCount (s : Sched) :
    (t_sched_switch s).suspendCount = s.suspendCount := by
  rcases t_sched_switch_eq_or s with h | ⟨next, h⟩ <;> rw [h]
  exact switchTo_suspendCount s next

theorem t_sched_switch_nready (s : Sched) : (t_sched_switch s).nready = s.nready := by
  rcases t_sched_switch_eq_or s with h | ⟨next, h⟩ <;> rw [h]
  exact switchTo_nready s next

theorem t_sched_switch_thread_fields (s : Sched) (t : Nat) :
    ((t_sched_switch s).threads t).current_priority = (s.threads t).current_priority ∧
    ((t_sched_switch s).threads t).number_mask = (s.threads t).number_mask ∧
    ((t_sched_switch s).threads t).init_priority = (s.threads t).init_priority := by
  rcases t_sched_switch_eq_or s with h | ⟨next, h⟩ <;> rw [h]
  · exact ⟨rfl, rfl, rfl⟩
  · exact switchTo_thread_fields s next t

/-! ### Preservation of well-formedness and of the ready-bitmap invariant -/

theorem switch_preserves_WF (s : Sched) (h : SchedWF s) : SchedWF (t_sched_switch s) := by
  obtain ⟨h1, h2, h3, h4, h5, h6⟩ := h
  have hr := t_sched_switch_ready s
  refine ⟨?_, ?_, ?_, ?_, ?_, ?_⟩
  · intro t p hm
    rw [hr] at hm
    rw [(t_sched_switch_thread_fields s t).1]
    exact h1 t p hm
  · intro t
    rw [(t_sched_switch_thread_fields s t).2.1, (t_sched_switch_thread_fields s t).1]
    exact h2 t
  · intro t; rw [(t_sched_switch_thread_fields s t).1]; exact h3 t
  · intro t; rw [(t_sched_switch_thread_fields s t).2.2]; exact h4 t
  · intro p; rw [hr]; exact h5 p
  · intro p hp; rw [hr]; exact h6 p hp

theorem switch_preserves_Inv (s : Sched) (h : SchedInv s) : SchedInv (t_sched_switch s) := by
  intro p hp
  rw [t_sched_switch_group, t_sched_switch_ready]
  exact h p hp

theorem insert_preserves (s : Sched) (tid : Nat)
    (hWF : SchedWF s) (hInv : SchedInv s) (hU : Unlinked s tid) :
    SchedWF (t_sched_insert_thread s tid) ∧ SchedInv (t_sched_insert_thread s tid) := by
  obtain ⟨h1, h2, h3, h4, h5, h6⟩ := hWF
  have hplt : (s.threads tid).current_priority < TO_THREAD_PRIORITY_MAX := h3 tid
  have hnotmem : tid ∉ s.ready (s.threads tid).current_priority := hU _ hplt
  constructor
  · refine ⟨?_, h2, h3, h4, ?_, ?_⟩
    · intro t q hm
      by_cases hq : q = (s.threads tid).current_priority
      · subst hq
        rw [show (t_sched_insert_thread s tid).ready (s.threads tid).current_priority
            = s.ready (s.threads tid).current_priority ++ [tid] from upd_same _ _ _] at hm
        rcases List.mem_append.mp hm with hm | hm
        · exact h1 t _ hm
        · simp at hm; subst hm; rfl
      · rw [show (t_sched_insert_thread s tid).ready q = s.ready q from upd_ne _ _ _ _ hq] at hm
        exact h1 t q hm
    · intro q
      by_cases hq : q = (s.threads tid).current_priority
      · subst hq
        rw [show (t_sched_insert_thread s tid).ready (s.threads tid).current_priority
            = s.ready (s.threads tid).current_priority ++ [tid] from upd_same _ _ _]
        rw [List.nodup_append]
        exact ⟨h5 _, List.nodup_singleton tid,
          fun a ha hb => by simp at hb; subst hb; exact hnotmem ha⟩
      · rw [show (t_sched_insert_thread s tid).ready q = s.ready q from upd_ne _ _ _ _ hq]
        exact h5 q
    · intro q hq
      have hq2 : q ≠ (s.threads tid).current_priority := by omega
      rw [show (t_sched_insert_thread s tid).ready q = s.ready q from upd_ne _ _ _ _ hq2]
      exact h6 q hq
  · intro q hq
    have hmask : (s.threads tid).number_mask = 2 ^ (s.threads tid).current_priority := by
      rw [h2 tid, shiftLeft_one_eq_two_pow]
    show ((s.group ||| (s.threads tid).number_mask).testBit q = true) ↔ _
    rw [hmask, testBit_set_mask]
    by_cases hqp : q = (s.threads tid).current_priority
    · subst hqp
      rw [show (t_sched_insert_thread s tid).ready (s.threads tid).current_priority
          = s.ready (s.threads tid).current_priority ++ [tid] from upd_same _ _ _]
      simp
    · rw [show (t_sched_insert_thread s tid).ready q = s.ready q from upd_ne _ _ _ _ hqp]
      have hpq : (s.threads tid).current_priority ≠ q := fun h => hqp h.symm
      simpa [hpq] using hInv q hq

theorem remove_preserves (s : Sched) (tid : Nat)
    (hWF : SchedWF s) (hInv : SchedInv s) :
    SchedWF (t_sched_remove_thread s tid) ∧ SchedInv (t_sched_remove_thread s tid) := by
  obtain ⟨h1, h2, h3, h4, h5, h6⟩ := hWF
  have hplt : (s.threads tid).current_priority < TO_THREAD_PRIORITY_MAX := h3 tid
  have herase : ∀ q, q ≠ (s.threads tid).current_priority →
      (s.ready q).erase tid = s.ready q := by
    intro q hq
    refine List.erase_of_not_mem (fun hmem => hq ?_)
    rw [← h1 tid q hmem]
  constructor
  · refine ⟨?_, h2, h3, h4, ?_, ?_⟩
    · intro t q hm
      exact h1 t q (List.mem_of_mem_erase hm)
    · intro q
      exact (h5 q).erase tid
    · intro q hq
      show (s.ready q).erase tid = []
      rw [h6 q hq]
      rfl
  · intro q hq
    have hmask : (s.threads tid).number_mask = 2 ^ (s.threads tid).current_priority := by
      rw [h2 tid, shiftLeft_one_eq_two_pow]
    show (((if (s.ready (s.threads tid).current_priority).erase tid = [] then
        s.group &&& (0xFFFFFFFF ^^^ (s.threads tid).number_mask) else s.group).testBit q) = true)
        ↔ (s.ready q).erase tid ≠ []
    by_cases hemp : (s.ready (s.threads tid).current_priority).erase tid = []
    · rw [if_pos hemp, hmask, testBit_clear_mask _ _ _ hq]
      by_cases hqp : q = (s.threads tid).current_priority
      · subst hqp
        simp [hemp]
      · rw [herase q hqp]
        have hpq : (s.threads tid).current_priority ≠ q := fun h => hqp h.symm
        simpa [hpq] using hInv q hq
    · rw [if_neg hemp]
      by_cases hqp : q = (s.threads tid).current_priority
      · subst hqp
        have hne : s.ready (s.threads tid).current_priority ≠ [] := by
          intro h0
          exact hemp (by rw [h0]; rfl)
        exact iff_of_true ((hInv _ hq).mpr hne) hemp
      · rw [herase q hqp]
        exact hInv q hq

theorem startup_preserves (s : Sched) (tid : Nat)
    (hWF : SchedWF s) (hInv : SchedInv s) (hU : Unlinked s tid)
    (hEq : (s.threads tid).current_priority = (s.threads tid).init_priority) :
    SchedWF (t_thread_startup (some tid) s).2 ∧ SchedInv (t_thread_startup (some tid) s).2 := by
  obtain ⟨h1, h2, h3, h4, h5, h6⟩ := hWF
  have hsplit : (t_thread_startup (some tid) s).2
      = if (s.threads tid).status = TO_THREAD_DELETED then s
        else t_thread_startup_body s tid := by
    by_cases hdel : (s.threads tid).status = TO_THREAD_DELETED <;>
      simp [t_thread_startup, hdel]
  rw [hsplit]
  by_cases hdel : (s.threads tid).status = TO_THREAD_DELETED
  · rw [if_pos hdel]
    exact ⟨⟨h1, h2, h3, h4, h5, h6⟩, hInv⟩
  rw [if_neg hdel]
  have hplt : (s.threads tid).init_priority < TO_THREAD_PRIORITY_MAX := h4 tid
  have hnotmem : tid ∉ s.ready (s.threads tid).init_priority := hU _ hplt
  constructor
  · refine ⟨?_, ?_, ?_, ?_, ?_, ?_⟩
    · intro t q hm
      by_cases ht : t = tid
      · subst ht
        by_cases hq : q = (s.threads t).init_priority
        · subst hq
          simp [t_thread_startup_body, upd_same]
        · rw [show (t_thread_startup_body s t).ready q = s.ready q from upd_ne _ _ _ _ hq] at hm
          exact absurd hm (hU q (by rw [← h1 t q hm]; exact h3 t))
      · have hth : (t_thread_startup_body s tid).threads t = s.threads t := upd_ne _ _ _ _ ht
        rw [hth]
        by_cases hq : q = (s.threads tid).init_priority
        · subst hq
          rw [show (t_thread_startup_body s tid).ready (s.threads tid).init_priority
              = s.ready (s.threads tid).init_priority ++ [tid] from upd_same _ _ _] at hm
          rcases List.mem_append.mp hm with hm | hm
          · exact h1 t _ hm
          · simp at hm; exact absurd hm ht
        · rw [show (t_thread_startup_body s tid).ready q = s.ready q from upd_ne _ _ _ _ hq] at hm
          exact h1 t q hm
    · intro t
      by_cases ht : t = tid
      · subst ht
        show ((t_thread_startup_body s t).threads t).number_mask = _
        simp only [t_thread_startup_body, upd_same]
        rw [h2 t, hEq]
      · have hth : (t_thread_startup_body s tid).threads t = s.threads t := upd_ne _ _ _ _ ht
        rw [hth]; exact h2 t
    · intro t
      by_cases ht : t = tid
      · subst ht
        simp only [t_thread_startup_body, upd_same]
        exact h4 t
      · have hth : (t_thread_startup_body s tid).threads t = s.threads t := upd_ne _ _ _ _ ht
        rw [hth]; exact h3 t
    · intro t
      by_cases ht : t = tid
      · subst ht
        simp only [t_thread_startup_body, upd_same]
        exact h4 t
      · have hth : (t_thread_startup_body s tid).threads t = s.threads t := upd_ne _ _ _ _ ht
        rw [hth]; exact h4 t
    · intro q
      by_cases hq : q = (s.threads tid).init_priority
      · subst hq
        rw [show (t_thread_startup_body s tid).ready (s.threads tid).init_priority
            = s.ready (s.threads tid).init_priority ++ [tid] from upd_same _ _ _]
        rw [List.nodup_append]
        exact ⟨h5 _, List.nodup_singleton tid,
          fun a ha hb => by simp at hb; subst hb; exact hnotmem ha⟩
      · rw [show (t_thread_startup_body s tid).ready q = s.ready q from upd_ne _ _ _ _ hq]
        exact h5 q
    · intro q hq
      have hq2 : q ≠ (s.threads tid).init_priority := by omega
      rw [show (t_thread_startup_body s tid).ready q = s.ready q from upd_ne _ _ _ _ hq2]
      exact h6 q hq
  · intro q hq
    have hmask : (s.threads tid).number_mask = 2 ^ (s.threads tid).init_priority := by
      rw [h2 tid, shiftLeft_one_eq_two_pow, hEq]
    show ((s.group ||| (s.threads tid).number_mask).testBit q = true) ↔ _
    rw [hmask, testBit_set_mask]
    by_cases hqp : q = (s.threads tid).init_priority
    · subst hqp
      rw [show (t_thread_startup_body s tid).ready (s.threads tid).init_priority
          = s.ready (s.threads tid).init_priority ++ [tid] from upd_same _ _ _]
      simp
    · rw [show (t_thread_startup_body s tid).ready q = s.ready q from upd_ne _ _ _ _ hqp]
      have hpq : (s.threads tid).init_priority ≠ q := fun h => hqp h.symm
      simpa [hpq] using hInv q hq

theorem rotate_preserves (s : Sched)
    (hWF : SchedWF s) (hInv : SchedInv s) :
    SchedWF (t_thread_rotate_same_prio s) ∧ SchedInv (t_thread_rotate_same_prio s) := by
  obtain ⟨h1, h2, h3, h4, h5, h6⟩ := hWF
  rcases hc : s.current with _ | cur
  · have hred : t_thread_rotate_same_prio s = s := by
      unfold t_thread_rotate_same_prio
      rw [hc]
    rw [hred]
    exact ⟨⟨h1, h2, h3, h4, h5, h6⟩, hInv⟩
  have hred : t_thread_rotate_same_prio s
      = if (s.ready (s.threads cur).current_priority).length ≤ 1 then s
        else t_sched_switch { s with ready := rotateReady s cur } := by
    unfold t_thread_rotate_same_prio
    rw [hc]
  rw [hred]
  by_cases hlen : (s.ready (s.threads cur).current_priority).length ≤ 1
  · rw [if_pos hlen]
    exact ⟨⟨h1, h2, h3, h4, h5, h6⟩, hInv⟩
  rw [if_neg hlen]
  have hplt : (s.threads cur).current_priority < TO_THREAD_PRIORITY_MAX := h3 cur
  have hrr_same : rotateReady s cur (s.threads cur).current_priority
      = (s.ready (s.threads cur).current_priority).erase cur ++ [cur] := by
    simp only [rotateReady]
    exact upd_same _ _ _
  have hrr_ne : ∀ q, q ≠ (s.threads cur).current_priority →
      rotateReady s cur q = (s.ready q).erase cur := by
    intro q hq
    simp only [rotateReady]
    exact upd_ne _ _ _ _ hq
  have herase : ∀ q, q ≠ (s.threads cur).current_priority →
      (s.ready q).erase cur = s.ready q := by
    intro q hq
    refine List.erase_of_not_mem (fun hmem => hq ?_)
    rw [← h1 cur q hmem]
  have hWF1 : SchedWF { s with ready := rotateReady s cur } := by
    refine ⟨?_, h2, h3, h4, ?_, ?_⟩
    · intro t q hm
      dsimp only at hm ⊢
      by_cases hq : q = (s.threads cur).current_priority
      · subst hq
        rw [hrr_same] at hm
        rcases List.mem_append.mp hm with hm | hm
        · exact h1 t _ (List.mem_of_mem_erase hm)
        · simp at hm; subst hm; rfl
      · rw [hrr_ne q hq] at hm
        exact h1 t q (List.mem_of_mem_erase hm)
    · intro q
      dsimp only
      by_cases hq : q = (s.threads cur).current_priority
      · subst hq
        rw [hrr_same, List.nodup_append]
        refine ⟨(h5 _).erase cur, List.nodup_singleton cur, fun a ha hb => ?_⟩
        simp at hb; subst hb
        exact (((h5 _).mem_erase_iff).mp ha).1 rfl
      · rw [hrr_ne q hq]
        exact (h5 q).erase cur
    · intro q hq
      dsimp only
      have hq2 : q ≠ (s.threads cur).current_priority := by omega
      rw [hrr_ne q hq2, h6 q hq]
      rfl
  have hInv1 : SchedInv { s with ready := rotateReady s cur } := by
    intro q hq
    dsimp only
    by_cases hqp : q = (s.threads cur).current_priority
    · subst hqp
      rw [hrr_same]
      have hne : s.ready (s.threads cur).current_priority ≠ [] := by
        intro h0; rw [h0] at hlen; exact hlen (by simp)
      exact iff_of_true ((hInv _ hq).mpr hne) (by simp)
    · rw [hrr_ne q hqp, herase q hqp]
      exact hInv q hq
  exact ⟨switch_preserves_WF _ hWF1, switch_preserves_Inv _ hInv1⟩

theorem setPrio_preserves (s : Sched) (tid pr : Nat)
    (hWF : SchedWF s) (hInv : SchedInv s) (hU : Unlinked s tid)
    (hpr : pr < TO_THREAD_PRIORITY_MAX) :
    SchedWF { s with threads := t_thread_set_priority s.threads tid pr } ∧
    SchedInv { s with threads := t_thread_set_priority s.threads tid pr } := by
  obtain ⟨h1, h2, h3, h4, h5, h6⟩ := hWF
  constructor
  · refine ⟨?_, ?_, ?_, ?_, h5, h6⟩
    · intro t q hm
      by_cases ht : t = tid
      · subst ht
        have hq32 : q < TO_THREAD_PRIORITY_MAX := by
          rw [← h1 t q hm]; exact h3 t
        exact absurd hm (hU q hq32)
      · show (t_thread_set_priority s.threads tid pr t).current_priority = q
        rw [show t_thread_set_priority s.threads tid pr t = s.threads t from upd_ne _ _ _ _ ht]
        exact h1 t q hm
    · intro t
      by_cases ht : t = tid
      · subst ht
        show (t_thread_set_priority s.threads t pr t).number_mask = _
        simp [t_thread_set_priority, upd_same]
      · show (t_thread_set_priority s.threads tid pr t).number_mask
          = 1 <<< (t_thread_set_priority s.threads tid pr t).current_priority
        rw [show t_thread_set_priority s.threads tid pr t = s.threads t from upd_ne _ _ _ _ ht]
        exact h2 t
    · intro t
      by_cases ht : t = tid
      · subst ht
        show (t_thread_set_priority s.threads t pr t).current_priority < _
        simp [t_thread_set_priority, upd_same]
        exact hpr
      · show (t_thread_set_priority s.threads tid pr t).current_priority < _
        rw [show t_thread_set_priority s.threads tid pr t = s.threads t from upd_ne _ _ _ _ ht]
        exact h3 t
    · intro t
      by_cases ht : t = tid
      · subst ht
        show (t_thread_set_priority s.threads t pr t).init_priority < _
        simp [t_thread_set_priority, upd_same]
        exact h4 t
      · show (t_thread_set_priority s.threads tid pr t).init_priority < _
        rw [show t_thread_set_priority s.threads tid pr t = s.threads t from upd_ne _ _ _ _ ht]
        exact h4 t
  · intro q hq
    exact hInv q hq

theorem schedStep_preserves (s : Sched) (op : SchedOp)
    (hWF : SchedWF s) (hInv : SchedInv s) (hV : ValidOp s op) :
    SchedWF (schedStep s op) ∧ SchedInv (schedStep s op) := by
  cases op with
  | insert tid => exact insert_preserves s tid hWF hInv hV
  | remove tid => exact remove_preserves s tid hWF hInv
  | startup tid => exact startup_preserves s tid hWF hInv hV.1 hV.2
  | rotate => exact rotate_preserves s hWF hInv
  | setPrio tid pr => exact setPrio_preserves s tid pr hWF hInv hV.1 hV.2

theorem schedRun_preserves (ops : List SchedOp) : ∀ s : Sched,
    SchedWF s → SchedInv s → ValidSeq s ops →
    SchedWF (schedRun s ops) ∧ SchedInv (schedRun s ops) := by
  induction ops with
  | nil => exact fun s hWF hInv _ => ⟨hWF, hInv⟩
  | cons op rest ih =>
    intro s hWF hInv hV
    obtain ⟨hop, hrest⟩ := hV
    obtain ⟨hWF2, hInv2⟩ := schedStep_preserves s op hWF hInv hop
    exact ih (schedStep s op) hWF2 hInv2 hrest

instance (s : Sched) : Decidable (SchedInv s) := by
  unfold SchedInv
  infer_instance

/-- C1 (amended): the ready-bitmap invariant (bit p set iff the queue at p
is non-empty) is preserved by every sequence of insert, remove, startup and
rotate operations in which threads are inserted or started only while not
already queued and started threads are at their initial priority, and by
TO_THREAD_SET_PRIORITY applied to threads that are NOT linked in a ready
list.  (Applying set-priority to a queued thread and then removing it
breaks the invariant: t_sched_remove_thread tests and clears the bit at
the thread's new priority, leaving the old bit set over an empty queue —
see the counterexample.) -/
theorem ready_bitmap_invariant (s : Sched) (ops : List SchedOp)
    (hWF : SchedWF s) (hInv : SchedInv s) (hV : ValidSeq s ops) :
    SchedInv (schedRun s ops) :=
  (schedRun_preserves ops s hWF hInv hV).2

/-- The thread object used by the concrete scheduler scenarios: priority 2,
mask 1 << 2, one-tick slice, INIT status. -/
def thr0 : Thread :=
  { current_priority := 2, init_priority := 2, number_mask := 4,
    init_tick := 1, remaining_tick := 1, status := TO_THREAD_INIT }

/-- Freshly initialised scheduler state (t_sched_init) populated with
copies of thr0 as the thread table. -/
def schedS0 : Sched :=
  { threads := fun _ => thr0, ready := fun _ => [], group := 0,
    nready := 0, suspendCount := 0, current := none, current_priority := 0 }

theorem schedS0_wf : SchedWF schedS0 := by
  refine ⟨?_, ?_, ?_, ?_, ?_, ?_⟩
  · intro t p hm
    exact absurd hm (List.not_mem_nil t)
  · intro t
    show thr0.number_mask = 1 <<< thr0.current_priority
    decide
  · intro t
    show thr0.current_priority < TO_THREAD_PRIORITY_MAX
    decide
  · intro t
    show thr0.init_priority < TO_THREAD_PRIORITY_MAX
    decide
  · intro p; exact List.nodup_nil
  · intro p _; rfl

/-- C1 counterexample: insert thread 0 at priority 2, change its priority
to 3 with TO_THREAD_SET_PRIORITY while it is still linked in the ready
list of priority 2, then t_sched_remove_thread it.  The removal empties
the priority-2 queue but tests and clears the bit at the NEW priority 3,
so bit 2 stays set while the queue at priority 2 is empty: the claimed
invariant is violated. -/
theorem ready_bitmap_setprio_counterexample :
    (schedRun schedS0 [.insert 0, .setPrio 0 3, .remove 0]).group.testBit 2 = true ∧
    (schedRun schedS0 [.insert 0, .setPrio 0 3, .remove 0]).ready 2 = [] := by
  constructor
  · decide
  · decide

/-- Witness for the amended C1 theorem on a concrete valid sequence. -/
theorem ready_bitmap_invariant_witness :
    SchedInv (schedRun schedS0 [.insert 0, .rotate, .remove 0, .setPrio 0 5]) :=
  ready_bitmap_invariant schedS0 [.insert 0, .rotate, .remove 0, .setPrio 0 5]
    schedS0_wf (by decide) (by decide)

/-- C10: t_thread_startup fails only on a null pointer (T_NULL) or a
DELETED thread (T_ERR); for EVERY other status it returns T_OK, marks the
thread READY, resets current_priority to init_priority, reloads the
remaining slice from init_tick, and appends the thread at the tail of the
ready queue of that priority. -/
theorem t_thread_startup_spec (s : Sched) (t : Nat) :
    t_thread_startup none s = (T_NULL, s) ∧
    ((s.threads t).status = TO_THREAD_DELETED →
      t_thread_startup (some t) s = (T_ERR, s)) ∧
    ((s.threads t).status ≠ TO_THREAD_DELETED →
      (t_thread_startup (some t) s).1 = T_OK ∧
      ((t_thread_startup (some t) s).2.threads t).status = TO_THREAD_READY ∧
      ((t_thread_startup (some t) s).2.threads t).current_priority
        = (s.threads t).init_priority ∧
      ((t_thread_startup (some t) s).2.threads t).remaining_tick
        = (s.threads t).init_tick ∧
      (t_thread_startup (some t) s).2.ready (s.threads t).init_priority
        = s.ready (s.threads t).init_priority ++ [t]) := by
  refine ⟨rfl, ?_, ?_⟩
  · intro hdel
    simp [t_thread_startup, hdel]
  · intro hdel
    have hred : t_thread_startup (some t) s = (T_OK, t_thread_startup_body s t) := by
      simp [t_thread_startup, hdel]
    rw [hred]
    refine ⟨rfl, ?_, ?_, ?_, ?_⟩
    · simp [t_thread_startup_body, upd]
    · simp [t_thread_startup_body, upd]
    · simp [t_thread_startup_body, upd]
    · simp [t_thread_startup_body, upd]

/-- Witness for C10 at a concrete INIT (not DELETED) thread. -/
theorem t_thread_startup_spec_witness :
    (t_thread_startup (some 0) schedS0).1 = T_OK ∧
    ((t_thread_startup (some 0) schedS0).2.threads 0).status = TO_THREAD_READY ∧
    ((t_thread_startup (some 0) schedS0).2.threads 0).current_priority
      = (schedS0.threads 0).init_priority ∧
    ((t_thread_startup (some 0) schedS0).2.threads 0).remaining_tick
      = (schedS0.threads 0).init_tick ∧
    (t_thread_startup (some 0) schedS0).2.ready (schedS0.threads 0).init_priority
      = schedS0.ready (schedS0.threads 0).init_priority ++ [0] :=
  (t_thread_startup_spec schedS0 0).2.2 (by decide)

/-! ### Claim C9: the suspend/resume counter -/

inductive CtlOp where
  | suspend
  | resume
deriving DecidableEq, Repr

def ctlStep (s : Sched) : CtlOp → Sched
  | .suspend => t_sched_suspend s
  | .resume => t_sched_resume s

def ctlRun (s : Sched) : List CtlOp → Sched
  | [] => s
  | op :: ops => ctlRun (ctlStep s op) ops

/-- The mathematical running value of the suspend counter. -/
def netCount : Nat → List CtlOp → Nat
  | c, [] => c
  | c, .suspend :: ops => netCount (c + 1) ops
  | c, .resume :: ops => netCount (c - 1) ops

/-- Balanced call discipline: every resume is preceded by strictly more
suspends than resumes. -/
def CtlBalanced : Nat → List CtlOp → Prop
  | _, [] => True
  | c, .suspend :: ops => CtlBalanced (c + 1) ops
  | c, .resume :: ops => 0 < c ∧ CtlBalanced (c - 1) ops

instance instDecidableCtlBalanced (c : Nat) (ops : List CtlOp) :
    Decidable (CtlBalanced c ops) :=
  match ops with
  | [] => .isTrue trivial
  | .suspend :: rest => instDecidableCtlBalanced (c + 1) rest
  | .resume :: rest =>
    have : Decidable (CtlBalanced (c - 1) rest) := instDecidableCtlBalanced (c - 1) rest
    inferInstanceAs (Decidable (_ ∧ _))

theorem t_sched_suspend_suspendCount (s : Sched) (hlt : s.suspendCount + 1 < U32_MOD) :
    (t_sched_suspend s).suspendCount = s.suspendCount + 1 := by
  show (s.suspendCount + 1) % U32_MOD = s.suspendCount + 1
  exact Nat.mod_eq_of_lt hlt

/-- Unfolding equation for t_sched_resume (stated once, proved by rfl, so
later proofs can rewrite with it without unfolding the definition). -/
theorem t_sched_resume_eq (s : Sched) :
    t_sched_resume s
      = if (s.suspendCount + (U32_MOD - 1)) % U32_MOD = 0 then
          (if 0 < s.nready then
            t_sched_switch { s with suspendCount := (s.suspendCount + (U32_MOD - 1)) % U32_MOD }
          else { s with suspendCount := (s.suspendCount + (U32_MOD - 1)) % U32_MOD })
        else { s with suspendCount := (s.suspendCount + (U32_MOD - 1)) % U32_MOD } := rfl

theorem t_sched_resume_suspendCount (s : Sched)
    (h0 : 0 < s.suspendCount) (hlt : s.suspendCount < U32_MOD) :
    (t_sched_resume s).suspendCount = s.suspendCount - 1 := by
  have hM : 0 < U32_MOD := by decide
  have he : (s.suspendCount + (U32_MOD - 1)) % U32_MOD = s.suspendCount - 1 := by
    have h2 : s.suspendCount + (U32_MOD - 1) = (s.suspendCount - 1) + U32_MOD := by omega
    rw [h2, Nat.add_mod_right]
    exact Nat.mod_eq_of_lt (by omega)
  rw [t_sched_resume_eq s, he]
  by_cases hz : s.suspendCount - 1 = 0
  · rw [if_pos hz]
    by_cases hn : 0 < s.nready
    · rw [if_pos hn, t_sched_switch_suspendCount]
    · rw [if_neg hn]
  · rw [if_neg hz]

theorem ctlRun_suspendCount (ops : List CtlOp) : ∀ (s : Sched) (c : Nat),
    s.suspendCount = c → CtlBalanced c ops → c + ops.length < U32_MOD →
    (ctlRun s ops).suspendCount = netCount c ops := by
  induction ops with
  | nil => intro s c hc _ _; exact hc
  | cons op rest ih =>
    intro s c hc hbal hlen
    cases op with
    | suspend =>
      simp only [ctlRun, ctlStep, netCount]
      refine ih (t_sched_suspend s) (c + 1) ?_ hbal ?_
      · rw [t_sched_suspend_suspendCount s (by simp at hlen; omega), hc]
      · simp at hlen ⊢
        omega
    | resume =>
      obtain ⟨hpos, hbal2⟩ := hbal
      simp only [ctlRun, ctlStep, netCount]
      refine ih (t_sched_resume s) (c - 1) ?_ hbal2 ?_
      · rw [t_sched_resume_suspendCount s (by omega) (by simp at hlen; omega), hc]
      · simp at hlen ⊢
        omega

/-- C9 (amended): under the balanced call discipline (each resume preceded
by strictly more suspends than resumes, fewer than 2^32 calls) the suspend
counter after any sequence of t_sched_suspend / t_sched_resume calls
equals the non-negative running difference of suspends and resumes;
moreover t_sched_switch is a no-op whenever the counter is non-zero, and a
resume that brings the counter from 1 to 0 while ready threads exist
invokes t_sched_switch.  (Without the balance requirement the unguarded
32-bit decrement in t_sched_resume wraps: see the counterexample.) -/
theorem sched_suspend_resume_counter (s : Sched) (ops : List CtlOp)
    (hc : s.suspendCount = 0) (hbal : CtlBalanced 0 ops)
    (hlen : ops.length < U32_MOD) :
    (ctlRun s ops).suspendCount = netCount 0 ops ∧
    (∀ s2 : Sched, s2.suspendCount ≠ 0 → t_sched_switch s2 = s2) ∧
    (∀ s2 : Sched, s2.suspendCount = 1 → 0 < s2.nready →
      t_sched_resume s2 = t_sched_switch { s2 with suspendCount := 0 }) := by
  refine ⟨ctlRun_suspendCount ops s 0 hc hbal (by omega), ?_, ?_⟩
  · intro s2 h
    unfold t_sched_switch
    rw [if_pos h]
  · intro s2 h1 hn
    have he : (1 + (U32_MOD - 1)) % U32_MOD = 0 := by decide
    rw [t_sched_resume_eq s2, h1, he, if_pos rfl, if_pos hn]

/-- C9 counterexample: calling t_sched_resume once from the initial state
(counter 0, no ready threads) wraps the unsigned 32-bit suspend counter
to 2^32 - 1 instead of keeping it non-negative at zero. -/
theorem sched_resume_underflow_counterexample :
    (t_sched_resume schedS0).suspendCount = 4294967295 := by
  decide

/-- Witness for the amended C9 theorem on a concrete balanced sequence. -/
theorem sched_suspend_resume_counter_witness :
    (ctlRun schedS0 [CtlOp.suspend, CtlOp.suspend, CtlOp.resume]).suspendCount
      = netCount 0 [CtlOp.suspend, CtlOp.suspend, CtlOp.resume] ∧
    (∀ s2 : Sched, s2.suspendCount ≠ 0 → t_sched_switch s2 = s2) ∧
    (∀ s2 : Sched, s2.suspendCount = 1 → 0 < s2.nready →
      t_sched_resume s2 = t_sched_switch { s2 with suspendCount := 0 }) :=
  sched_suspend_resume_counter schedS0 [CtlOp.suspend, CtlOp.suspend, CtlOp.resume]
    rfl (by decide) (by decide)

/-! ## 4.F-4.H IPC: semaphore and mutex (ipc.c, tdef.h)

t_ipc_t becomes one flat record: the union u of tdef.h is split into the
sema/mutex fields (holder, recursive, original_prio) and the queue fields
(byte buffer plus cursor offsets: head = offset 0, tail = buf.length,
read_from = read_off, write_to = write_off); each function touches only
the fields its C counterpart does.  Thread pointers become thread ids; the
wait list holds ids in list order, head first.  msg_waiting and recursive
are t_uint16_t; recursive arithmetic is therefore taken mod 2^16. -/

inductive IpcType where
  | IPC_SEMA
  | IPC_MUTEX
  | IPC_RECURSIVE_MUTEX
  | IPC_QUEUE
deriving DecidableEq, Repr

def TO_IPC_FLAG_FIFO : Nat := 0
def TO_IPC_FLAG_PRIO : Nat := 1

structure t_ipc where
  mtype : IpcType
  status : Nat
  mode : Nat
  msg_waiting : Nat
  length : Nat
  item_size : Nat
  wait_list : List Nat
  holder : Option Nat
  recursive : Nat
  original_prio : Nat
  buf : List Nat
  read_off : Nat
  write_off : Nat
deriving DecidableEq, Repr

/-- Result of t_sema_send, with the number of t_irq_disable and
t_irq_enable calls performed recorded so that critical-section balance can
be audited.  woken is the head waiter detached, marked READY and handed to
t_sched_insert_thread; need_schedule mirrors the local flag that triggers
t_sched_switch after the critical section. -/
structure SemaSendResult where
  ret : T_Status
  ipc : t_ipc
  woken : Option Nat
  need_schedule : Bool
  irq_disables : Nat
  irq_enables : Nat
deriving DecidableEq, Repr

/-- t_sema_send (ipc.c): pre-checks outside the critical section, then
t_irq_disable; re-check deleted; if msg_waiting < length increment it and
wake the head waiter if one exists; if the semaphore is at capacity the
function returns T_ERR - and the C code does so WITHOUT calling
t_irq_enable(level), which the irq counters make visible. -/
def t_sema_send (ipc : t_ipc) : SemaSendResult :=
  if ipc.status = 0 then ⟨T_DELETED, ipc, none, false, 0, 0⟩
  else if ipc.mtype ≠ IpcType.IPC_SEMA then ⟨T_INVALID, ipc, none, false, 0, 0⟩
  else
    if ipc.status = 0 then ⟨T_DELETED, ipc, none, false, 1, 1⟩
    else if ipc.msg_waiting < ipc.length then
      match ipc.wait_list with
      | th :: rest =>
        let ipc1 := { ipc with msg_waiting := ipc.msg_waiting + 1, wait_list := rest }
        ⟨T_OK, ipc1, some th, true, 1, 1⟩
      | [] =>
        ⟨T_OK, { ipc with msg_waiting := ipc.msg_waiting + 1 }, none, false, 1, 1⟩
    else
      ⟨T_ERR, ipc, none, false, 1, 0⟩

/-- A semaphore at capacity: status valid, type IPC_SEMA,
msg_waiting = length = 2, no waiters. -/
def semaFull : t_ipc :=
  { mtype := IpcType.IPC_SEMA, status := 1, mode := 0, msg_waiting := 2,
    length := 2, item_size := 0, wait_list := [], holder := none,
    recursive := 0, original_prio := 0xFF, buf := [], read_off := 0,
    write_off := 0 }

/-- C4: the success paths of t_sema_send behave as claimed, but the
at-capacity path does NOT exit the critical section it entered: at
msg_waiting = length the function returns T_ERR after one t_irq_disable
and zero t_irq_enable calls, leaving interrupts masked.  The first two
conjuncts show the claimed increment/wake behaviour (balanced) at a
one-below-capacity semaphore with a waiter; the rest evaluate the failing
input. -/
theorem t_sema_send_err_path_leaks_critical_section :
    (t_sema_send { semaFull with msg_waiting := 1, wait_list := [9] }
      = ⟨T_OK, { semaFull with msg_waiting := 2, wait_list := [] }, some 9, true, 1, 1⟩) ∧
    (t_sema_send { semaFull with msg_waiting := 0, wait_list := [] }
      = ⟨T_OK, { semaFull with msg_waiting := 1 }, none, false, 1, 1⟩) ∧
    t_sema_send semaFull
      = ⟨T_ERR, semaFull, none, false, 1, 0⟩ ∧
    (t_sema_send semaFull).irq_enables ≠ (t_sema_send semaFull).irq_disables := by
  refine ⟨by decide, by decide, by decide, by decide⟩

/-! ### Mutex and recursive mutex (t_mutex_recv_base / t_mutex_send_base) -/

/-- Priority-ordered wait-list insertion of t_ipc_suspend: walk from the
head and insert before the first waiter whose current priority is strictly
lower (with TO_LOWER_PRIORITY_NUM_HIGHER_PRIORITY = 0: numerically
smaller). -/
def insertByPrio (threads : Nat → Thread) (tid : Nat) : List Nat → List Nat
  | [] => [tid]
  | w :: rest =>
    if (threads w).current_priority < (threads tid).current_priority then
      tid :: w :: rest
    else w :: insertByPrio threads tid rest

/-- The wait-list linking of t_ipc_suspend (ipc.c): TO_IPC_FLAG_PRIO
inserts by priority, TO_IPC_FLAG_FIFO and any unknown flag append at the
tail.  (The ready-queue removal and SUSPEND marking of t_ipc_suspend act
on the scheduler state and are not consulted by the mutex-state claims.) -/
def t_ipc_suspend_list (threads : Nat → Thread) (flag tid : Nat)
    (l : List Nat) : List Nat :=
  if flag = TO_IPC_FLAG_PRIO then insertByPrio threads tid l else l ++ [tid]

/-- Result of one pass of the t_mutex_recv_base retry loop: either a
return (with the updated mutex and thread table) or suspension of the
caller after priority inheritance and wait-list insertion. -/
inductive MRecvResult where
  | ret (st : T_Status) (ipc : t_ipc) (threads : Nat → Thread)
  | blocked (ipc : t_ipc) (threads : Nat → Thread)

/-- One pass of t_mutex_recv_base (ipc.c) up to the point where the caller
would suspend: deleted check, take-if-available (msg_waiting = 1: set
holder, recursion 1, save the caller's current priority as restore
target), owner re-acquire (recursion incremented - mod 2^16, the t_uint16_t
field - only for IPC_RECURSIVE_MUTEX; a plain IPC_MUTEX owner gets T_OK
with nothing changed), the timeout = 0 early exit, and otherwise priority
inheritance (record the holder's priority once, raise the holder to the
caller's priority) followed by t_ipc_suspend.  The timer arming and the
context switch after suspension touch other subsystems and are not part of
the mutex state. -/
def t_mutex_recv_once (cur : Nat) (threads : Nat → Thread) (ipc : t_ipc)
    (timeout : Int) : MRecvResult :=
  if ipc.status = 0 then .ret T_DELETED ipc threads
  else if ipc.status = 0 then .ret T_DELETED ipc threads
  else if ipc.msg_waiting = 1 then
    let ipc1 := { ipc with
      msg_waiting := 0,
      holder := some cur,
      recursive := 1,
      original_prio := (threads cur).current_priority }
    .ret T_OK ipc1 threads
  else if ipc.holder = some cur then
    let rec2 := if ipc.mtype = IpcType.IPC_RECURSIVE_MUTEX
      then (ipc.recursive + 1) % U16_MOD else ipc.recursive
    .ret T_OK { ipc with recursive := rec2 } threads
  else if timeout = 0 then .ret T_ERR ipc threads
  else
    match ipc.holder with
    | some h =>
      if (threads h).current_priority < (threads cur).current_priority then
        let ipc2 := if ipc.original_prio = DUMMY_PRIORITY
          then { ipc with original_prio := (threads h).current_priority } else ipc
        let threads2 := t_thread_set_priority threads h (threads cur).current_priority
        let ipc3 := { ipc2 with
          wait_list := t_ipc_suspend_list threads2 ipc.mode cur ipc2.wait_list }
        .blocked ipc3 threads2
      else
        let ipc3 := { ipc with
          wait_list := t_ipc_suspend_list threads ipc.mode cur ipc.wait_list }
        .blocked ipc3 threads
    | none =>
      let ipc3 := { ipc with
        wait_list := t_ipc_suspend_list threads ipc.mode cur ipc.wait_list }
      .blocked ipc3 threads

structure MSendResult where
  ret : T_Status
  ipc : t_ipc
  threads : Nat → Thread
  woken : Option Nat
  need_schedule : Bool

/-- t_mutex_send_base (ipc.c): deleted check, owner check, recursive
decrement with early T_OK while recursion remains, then full release:
msg_waiting := 1, holder := none, restore the saved original priority when
a boost was recorded and the releaser's current priority differs from it,
wake the head waiter and request a switch. -/
def t_mutex_send_base (cur : Nat) (threads : Nat → Thread) (ipc : t_ipc) :
    MSendResult :=
  if ipc.status = 0 then ⟨T_DELETED, ipc, threads, none, false⟩
  else if ipc.status = 0 then ⟨T_DELETED, ipc, threads, none, false⟩
  else if ipc.holder ≠ some cur then ⟨T_ERR, ipc, threads, none, false⟩
  else
    let rec1 := if ipc.mtype = IpcType.IPC_RECURSIVE_MUTEX then
        (if 0 < ipc.recursive then ipc.recursive - 1 else ipc.recursive)
      else ipc.recursive
    if ipc.mtype = IpcType.IPC_RECURSIVE_MUTEX ∧ 0 < rec1 then
      ⟨T_OK, { ipc with recursive := rec1 }, threads, none, false⟩
    else
      let ipc2 := { ipc with recursive := rec1, msg_waiting := 1, holder := none }
      let restore := ipc.original_prio ≠ DUMMY_PRIORITY ∧
        (threads cur).current_priority ≠ ipc.original_prio
      let threads2 := if restore
        then t_thread_set_priority threads cur ipc.original_prio else threads
      let ipc3 := if restore
        then { ipc2 with original_prio := DUMMY_PRIORITY } else ipc2
      match ipc3.wait_list with
      | th :: rest => ⟨T_OK, { ipc3 with wait_list := rest }, threads2, some th, true⟩
      | [] => ⟨T_OK, ipc3, threads2, none, false⟩

/-- An IPC_MUTEX currently owned by thread 7 (msg_waiting 0, recursion 1). -/
def mtxOwned : t_ipc :=
  { mtype := IpcType.IPC_MUTEX, status := 1, mode := 0, msg_waiting := 0,
    length := 1, item_size := 0, wait_list := [], holder := some 7,
    recursive := 1, original_prio := 5, buf := [], read_off := 0,
    write_off := 0 }

/-- C7 counterexample: the owner (thread 7) calls t_mutex_recv_base again
on the non-recursive mutex it already holds; the code returns T_OK - not
an error - and leaves owner, recursion count and msg_waiting untouched. -/
theorem t_mutex_reacquire_returns_ok_counterexample :
    t_mutex_recv_once 7 (fun _ => thr0) mtxOwned 0
      = MRecvResult.ret T_OK mtxOwned (fun _ => thr0) ∧
    T_OK ≠ T_ERR := by
  exact ⟨rfl, by decide⟩

/-- C7 (amended): when the owner of a NON-recursive mutex (IPC_MUTEX)
calls t_mutex_recv_base again, the call returns T_OK - a benign no-op, not
an error status - leaving the owner, recursion count and msg_waiting
fields unchanged; only a recursive mutex increments the recursion count on
owner re-acquire. -/
theorem t_mutex_nonrecursive_reacquire (cur : Nat) (threads : Nat → Thread)
    (ipc : t_ipc) (timeout : Int)
    (hstat : ipc.status ≠ 0) (htype : ipc.mtype = IpcType.IPC_MUTEX)
    (hmsg : ipc.msg_waiting ≠ 1) (hown : ipc.holder = some cur) :
    t_mutex_recv_once cur threads ipc timeout
      = MRecvResult.ret T_OK ipc threads := by
  simp [t_mutex_recv_once, hstat, hmsg, hown, htype]
  rw [← htype, ← hown]

/-- Witness for the amended C7 theorem at the concrete owned mutex. -/
theorem t_mutex_nonrecursive_reacquire_witness :
    t_mutex_recv_once 7 (fun _ => thr0) mtxOwned 3
      = MRecvResult.ret T_OK mtxOwned (fun _ => thr0) :=
  t_mutex_nonrecursive_reacquire 7 (fun _ => thr0) mtxOwned 3
    (by decide) (by decide) (by decide) (by decide)

/-- The same mutex as a recursive mutex owned by thread 7 with recursion
depth at the declared maximum MUTEX_RECURSIVE_COUNT_MAX = 0xFF. -/
def rmtxAtMax : t_ipc := { mtxOwned with
  mtype := IpcType.IPC_RECURSIVE_MUTEX, recursive := 255 }

/-- ... and with the 16-bit recursion counter at its largest value. -/
def rmtxAtU16Max : t_ipc := { mtxOwned with
  mtype := IpcType.IPC_RECURSIVE_MUTEX, recursive := 65535 }

/-- C8: refuted by evaluation.  MUTEX_RECURSIVE_COUNT_MAX (0xFF) is
defined in tdef.h but never consulted: the owner re-acquire path runs a
bare recursive++ on the t_uint16_t field, so from depth 255 one more
acquisition reaches 256 (exceeding the declared saturation limit), and
from depth 65535 the counter wraps to 0. -/
theorem t_mutex_recursive_count_not_saturating :
    t_mutex_recv_once 7 (fun _ => thr0) rmtxAtMax 0
      = MRecvResult.ret T_OK { rmtxAtMax with recursive := 256 } (fun _ => thr0) ∧
    255 < 256 ∧
    t_mutex_recv_once 7 (fun _ => thr0) rmtxAtU16Max 0
      = MRecvResult.ret T_OK { rmtxAtU16Max with recursive := 0 } (fun _ => thr0) := by
  exact ⟨rfl, by decide, rfl⟩



/-- The acquire branch of t_mutex_recv_base: an available mutex
(msg_waiting = 1) is taken by the caller, recursion set to 1 and the
caller's current priority saved as the restore target. -/
theorem mutex_acquire_eq (cur : Nat) (threads : Nat → Thread) (ipc : t_ipc)
    (timeout : Int) (hstat : ipc.status ≠ 0) (havail : ipc.msg_waiting = 1) :
    t_mutex_recv_once cur threads ipc timeout
      = MRecvResult.ret T_OK { ipc with
          msg_waiting := 0,
          holder := some cur,
          recursive := 1,
          original_prio := (threads cur).current_priority } threads := by
  simp [t_mutex_recv_once, hstat, havail]

/-- The full-release path of t_mutex_send_base for an outermost
acquisition (recursion depth 1): T_OK, holder cleared, mutex available,
the releaser's priority restored to the saved target, head waiter woken. -/
theorem mutex_release_eq (cur : Nat) (threads : Nat → Thread) (ipc : t_ipc)
    (htype : ipc.mtype = IpcType.IPC_MUTEX ∨ ipc.mtype = IpcType.IPC_RECURSIVE_MUTEX)
    (hstat : ipc.status ≠ 0) (hown : ipc.holder = some cur)
    (hrec : ipc.recursive = 1) (hsaved : ipc.original_prio ≠ DUMMY_PRIORITY) :
    (t_mutex_send_base cur threads ipc).ret = T_OK ∧
    (t_mutex_send_base cur threads ipc).ipc.holder = none ∧
    (t_mutex_send_base cur threads ipc).ipc.msg_waiting = 1 ∧
    ((t_mutex_send_base cur threads ipc).threads cur).current_priority
      = ipc.original_prio ∧
    (∀ w rest, ipc.wait_list = w :: rest →
      (t_mutex_send_base cur threads ipc).woken = some w ∧
      (t_mutex_send_base cur threads ipc).need_schedule = true) := by
  have hne : ¬ ipc.holder ≠ some cur := by simp [hown]
  rcases htype with ht | ht <;>
    by_cases hpr : (threads cur).current_priority = ipc.original_prio <;>
      rcases hw : ipc.wait_list with _ | ⟨w, rest⟩ <;>
        simp [t_mutex_send_base, hstat, hne, ht, hrec, hpr, hw, hsaved,
          t_thread_set_priority, upd_same]

/-- C6: a mutex or recursive mutex taken while available records the
caller as holder with recursion depth 1 and the caller's current priority
as restore target; releasing this outermost acquisition - after an
arbitrary priority boost of the holder - returns T_OK, clears the owner,
makes the mutex available again (msg_waiting = 1), restores the releaser's
current priority to the value saved at acquisition (setting it back
whenever the boost left it different), and when the wait list is non-empty
wakes its head and requests a switch. -/
theorem t_mutex_outermost_release_restores_priority
    (threads : Nat → Thread) (ipc : t_ipc) (cur boost : Nat) (timeout : Int)
    (htype : ipc.mtype = IpcType.IPC_MUTEX ∨ ipc.mtype = IpcType.IPC_RECURSIVE_MUTEX)
    (hstat : ipc.status ≠ 0) (havail : ipc.msg_waiting = 1)
    (hdummy : (threads cur).current_priority ≠ DUMMY_PRIORITY) :
    ∃ ipc1,
      t_mutex_recv_once cur threads ipc timeout
        = MRecvResult.ret T_OK ipc1 threads ∧
      ipc1.holder = some cur ∧
      ipc1.recursive = 1 ∧
      ipc1.original_prio = (threads cur).current_priority ∧
      ipc1.wait_list = ipc.wait_list ∧
      ((t_mutex_send_base cur (t_thread_set_priority threads cur boost) ipc1).ret
          = T_OK ∧
        (t_mutex_send_base cur (t_thread_set_priority threads cur boost) ipc1).ipc.holder
          = none ∧
        (t_mutex_send_base cur (t_thread_set_priority threads cur boost) ipc1).ipc.msg_waiting
          = 1 ∧
        ((t_mutex_send_base cur (t_thread_set_priority threads cur boost) ipc1).threads
            cur).current_priority = (threads cur).current_priority ∧
        (∀ w rest, ipc.wait_list = w :: rest →
          (t_mutex_send_base cur (t_thread_set_priority threads cur boost) ipc1).woken
            = some w ∧
          (t_mutex_send_base cur (t_thread_set_priority threads cur boost) ipc1).need_schedule
            = true)) := by
  refine ⟨_, mutex_acquire_eq cur threads ipc timeout hstat havail,
    rfl, rfl, rfl, rfl, ?_⟩
  exact mutex_release_eq cur (t_thread_set_priority threads cur boost) _
    htype hstat rfl rfl hdummy

/-- An available non-recursive mutex. -/
def mtxAvail : t_ipc :=
  { mtype := IpcType.IPC_MUTEX, status := 1, mode := 0, msg_waiting := 1,
    length := 1, item_size := 0, wait_list := [], holder := none,
    recursive := 0, original_prio := 0xFF, buf := [], read_off := 0,
    write_off := 0 }

/-- Witness for C6: thread 0 (priority 2) takes mtxAvail, is boosted to
priority 9, and releases. -/
theorem t_mutex_outermost_release_restores_priority_witness :
    ∃ ipc1,
      t_mutex_recv_once 0 (fun _ => thr0) mtxAvail (-1)
        = MRecvResult.ret T_OK ipc1 (fun _ => thr0) ∧
      ipc1.holder = some 0 ∧
      ipc1.recursive = 1 ∧
      ipc1.original_prio = ((fun _ => thr0) 0).current_priority ∧
      ipc1.wait_list = mtxAvail.wait_list ∧
      ((t_mutex_send_base 0 (t_thread_set_priority (fun _ => thr0) 0 9) ipc1).ret
          = T_OK ∧
        (t_mutex_send_base 0 (t_thread_set_priority (fun _ => thr0) 0 9) ipc1).ipc.holder
          = none ∧
        (t_mutex_send_base 0 (t_thread_set_priority (fun _ => thr0) 0 9) ipc1).ipc.msg_waiting
          = 1 ∧
        ((t_mutex_send_base 0 (t_thread_set_priority (fun _ => thr0) 0 9) ipc1).threads
            0).current_priority = ((fun _ => thr0) 0).current_priority ∧
        (∀ w rest, mtxAvail.wait_list = w :: rest →
          (t_mutex_send_base 0 (t_thread_set_priority (fun _ => thr0) 0 9) ipc1).woken
            = some w ∧
          (t_mutex_send_base 0 (t_thread_set_priority (fun _ => thr0) 0 9) ipc1).need_schedule
            = true)) :=
  t_mutex_outermost_release_restores_priority (fun _ => thr0) mtxAvail 0 9 (-1)
    (Or.inl rfl) (by decide) rfl (by decide)


/-! ## 4.I Bounded message queue (ipc.c, t_queue_send / t_queue_recv)

The caller-supplied item pool becomes a byte list; head is offset 0, tail
is buf.length, and the read/write pointers are byte offsets from head.
__t_memcpy of item_size bytes becomes writeBytes / readBytes below. -/

/-- __t_memcpy(buf + off, data, data.length): overwrite data.length bytes
of buf starting at off. -/
def writeBytes (buf : List Nat) (off : Nat) (data : List Nat) : List Nat :=
  buf.take off ++ data ++ buf.drop (off + data.length)

/-- __t_memcpy(out, buf + off, n): read n bytes of buf starting at off. -/
def readBytes (buf : List Nat) (off n : Nat) : List Nat :=
  (buf.drop off).take n

theorem writeBytes_length (buf data : List Nat) (off : Nat)
    (h : off + data.length ≤ buf.length) :
    (writeBytes buf off data).length = buf.length := by
  simp [writeBytes]
  omega

theorem readBytes_writeBytes_self (buf data : List Nat) (off : Nat)
    (h : off + data.length ≤ buf.length) :
    readBytes (writeBytes buf off data) off data.length = data := by
  unfold readBytes writeBytes
  rw [List.append_assoc, List.drop_left' (by rw [List.length_take]; omega),
    List.take_left' rfl]

theorem readBytes_writeBytes_left (buf data : List Nat) (off off2 n : Nat)
    (hn : off2 + n ≤ off) (h : off + data.length ≤ buf.length) :
    readBytes (writeBytes buf off data) off2 n = readBytes buf off2 n := by
  unfold readBytes writeBytes
  rw [List.append_assoc,
    List.drop_append_of_le_length (by rw [List.length_take]; omega),
    List.take_append_of_le_length
      (by rw [List.length_drop, List.length_take]; omega),
    List.drop_take, List.take_take]
  congr 1
  omega

theorem readBytes_writeBytes_right (buf data : List Nat) (off off2 n : Nat)
    (hn : off + data.length ≤ off2) (h : off ≤ buf.length) :
    readBytes (writeBytes buf off data) off2 n = readBytes buf off2 n := by
  unfold readBytes writeBytes
  rw [List.drop_append_eq_append_drop,
    List.drop_eq_nil_of_le (by simp [List.length_take]; omega),
    List.nil_append, List.drop_drop]
  have harith : off + data.length + (off2 - (buf.take off ++ data).length) = off2 := by
    simp [List.length_take]
    omega
  rw [harith]

/-- Slot a (of len slots of isz bytes each) ends within the buffer. -/
theorem slot_end_le (a len isz : Nat) (ha : a < len) :
    a * isz + isz ≤ len * isz := by
  rw [← Nat.succ_mul]
  exact Nat.mul_le_mul_right isz ha

/-- Distinct slots occupy disjoint byte ranges (ordered case). -/
theorem slot_disjoint (a b isz : Nat) (hab : a < b) :
    a * isz + isz ≤ b * isz := by
  rw [← Nat.succ_mul]
  exact Nat.mul_le_mul_right isz hab

/-- Ring-slot arithmetic: adding the same base offset keeps distinct
indices distinct modulo the ring size. -/
theorem mod_slot_inj (len ri j m : Nat) (hj : j < len) (hm : m < len)
    (h : (ri + j) % len = (ri + m) % len) : j = m := by
  have h2 : j % len = m % len := Nat.ModEq.add_left_cancel' ri h
  rwa [Nat.mod_eq_of_lt hj, Nat.mod_eq_of_lt hm] at h2

/-- The cursor advance of t_queue_send / t_queue_recv: add item_size and
wrap to head when the tail is reached; in slot arithmetic this is the
increment mod length. -/
theorem advance_off (len isz a : Nat) (hisz : 0 < isz) (ha : a < len) :
    (if len * isz ≤ a * isz + isz then 0 else a * isz + isz)
      = ((a + 1) % len) * isz := by
  by_cases h : a + 1 = len
  · subst h
    rw [if_pos (by rw [← Nat.succ_mul]), Nat.mod_self]
    exact (Nat.zero_mul isz).symm
  · have h2 : a + 1 < len := Nat.lt_of_le_of_ne (Nat.succ_le_of_lt ha) h
    have hcond : ¬ (len * isz ≤ a * isz + isz) := by
      rw [← Nat.succ_mul]
      intro hcon
      have := Nat.le_of_mul_le_mul_right hcon hisz
      omega
    rw [if_neg hcond, Nat.mod_eq_of_lt h2, Nat.succ_mul]

/-- One non-blocking pass of t_queue_send (ipc.c): deleted and type
checks; if a slot is free copy item_size bytes to the write cursor,
advance it with wrap at tail, increment the fill count and wake the head
waiter if one exists (wait_list.tail is the identity on an empty list,
exactly as the C is a no-op); a full queue with timeout 0 returns T_ERR.
The blocking retry loop suspends on the scheduler and is outside the
queue state. -/
def t_queue_send_try (ipc : t_ipc) (data : List Nat) :
    T_Status × t_ipc × Option Nat :=
  if ipc.status = 0 then (T_DELETED, ipc, none)
  else if ipc.mtype ≠ IpcType.IPC_QUEUE then (T_INVALID, ipc, none)
  else if ipc.msg_waiting < ipc.length then
    let buf2 := writeBytes ipc.buf ipc.write_off data
    let w2 := ipc.write_off + ipc.item_size
    let w3 := if ipc.buf.length ≤ w2 then 0 else w2
    let ipc2 := { ipc with
      buf := buf2,
      write_off := w3,
      msg_waiting := ipc.msg_waiting + 1,
      wait_list := ipc.wait_list.tail }
    (T_OK, ipc2, ipc.wait_list.head?)
  else (T_ERR, ipc, none)

/-- One non-blocking pass of t_queue_recv (ipc.c): deleted and type
checks; if an item is present copy item_size bytes from the read cursor,
advance it with wrap at tail, decrement the fill count and wake the head
waiter if one exists; an empty queue with timeout 0 returns T_ERR. -/
def t_queue_recv_try (ipc : t_ipc) :
    T_Status × t_ipc × List Nat × Option Nat :=
  if ipc.status = 0 then (T_DELETED, ipc, [], none)
  else if ipc.mtype ≠ IpcType.IPC_QUEUE then (T_INVALID, ipc, [], none)
  else if 0 < ipc.msg_waiting then
    let item := readBytes ipc.buf ipc.read_off ipc.item_size
    let r2 := ipc.read_off + ipc.item_size
    let r3 := if ipc.buf.length ≤ r2 then 0 else r2
    let ipc2 := { ipc with
      read_off := r3,
      msg_waiting := ipc.msg_waiting - 1,
      wait_list := ipc.wait_list.tail }
    (T_OK, ipc2, item, ipc.wait_list.head?)
  else (T_ERR, ipc, [], none)

/-- t_queue_create_static (ipc.c) past its argument checks (the C returns
T_NULL for a null pool, zero item size or zero length): a fresh queue over
the caller-supplied pool, both cursors at head, empty. -/
def t_queue_create_static (pool : List Nat) (queue_length item_size mode : Nat) :
    t_ipc :=
  { mtype := IpcType.IPC_QUEUE, status := 1, mode := mode, msg_waiting := 0,
    length := queue_length, item_size := item_size, wait_list := [],
    holder := none, recursive := 0, original_prio := 0, buf := pool,
    read_off := 0, write_off := 0 }

/-- A timeline of successful queue operations. -/
inductive QOp where
  | send (data : List Nat)
  | recv
deriving DecidableEq, Repr

def qStep (ipc : t_ipc) : QOp → t_ipc
  | .send d => (t_queue_send_try ipc d).2.1
  | .recv => (t_queue_recv_try ipc).2.1

/-- The items delivered to receivers along the timeline, in order. -/
def qOutputs (ipc : t_ipc) : List QOp → List (List Nat)
  | [] => []
  | .send d :: ops => qOutputs (qStep ipc (.send d)) ops
  | .recv :: ops => (t_queue_recv_try ipc).2.2.1 :: qOutputs (qStep ipc .recv) ops

/-- The items handed to t_queue_send along the timeline, in order. -/
def qSends : List QOp → List (List Nat)
  | [] => []
  | .send d :: ops => d :: qSends ops
  | .recv :: ops => qSends ops

def qRecvCount : List QOp → Nat
  | [] => 0
  | .send _ :: ops => qRecvCount ops
  | .recv :: ops => qRecvCount ops + 1

/-- The claim's premise: every send happens with a free slot and an item
of exactly item_size bytes, every recv with a non-empty queue (so the
fill count stays within bounds and each pass succeeds). -/
def ValidQOp (ipc : t_ipc) : QOp → Prop
  | .send d => d.length = ipc.item_size ∧ ipc.msg_waiting < ipc.length
  | .recv => 0 < ipc.msg_waiting

instance (ipc : t_ipc) (op : QOp) : Decidable (ValidQOp ipc op) := by
  cases op <;> (unfold ValidQOp; infer_instance)

def ValidQSeq : t_ipc → List QOp → Prop
  | _, [] => True
  | ipc, op :: ops => ValidQOp ipc op ∧ ValidQSeq (qStep ipc op) ops

instance instDecidableValidQSeq (ipc : t_ipc) (ops : List QOp) :
    Decidable (ValidQSeq ipc ops) :=
  match ops with
  | [] => .isTrue trivial
  | op :: rest =>
    have : Decidable (ValidQSeq (qStep ipc op) rest) :=
      instDecidableValidQSeq (qStep ipc op) rest
    inferInstanceAs (Decidable (_ ∧ _))

/-- Refinement relation between the circular-buffer state and the queue of
items it holds: the fill count is the model length, the cursors sit at
read slot ri and write slot (ri + fill) mod length, and slot (ri + j) mod
length holds byte-for-byte the j-th oldest item. -/
def QRep (ipc : t_ipc) (model : List (List Nat)) : Prop :=
  ipc.mtype = IpcType.IPC_QUEUE ∧
  ipc.status ≠ 0 ∧
  0 < ipc.length ∧
  0 < ipc.item_size ∧
  ipc.buf.length = ipc.length * ipc.item_size ∧
  ipc.msg_waiting = model.length ∧
  model.length ≤ ipc.length ∧
  ∃ ri, ri < ipc.length ∧
    ipc.read_off = ri * ipc.item_size ∧
    ipc.write_off = ((ri + model.length) % ipc.length) * ipc.item_size ∧
    ∀ j, j < model.length →
      (model.getD j []).length = ipc.item_size ∧
      readBytes ipc.buf (((ri + j) % ipc.length) * ipc.item_size) ipc.item_size
        = model.getD j []


theorem qsend_step (ipc : t_ipc) (model : List (List Nat)) (x : List Nat)
    (hrep : QRep ipc model) (hx : x.length = ipc.item_size)
    (hroom : model.length < ipc.length) :
    (t_queue_send_try ipc x).1 = T_OK ∧
    QRep (t_queue_send_try ipc x).2.1 (model ++ [x]) := by
  obtain ⟨htype, hstat, hlen, hisz, hbuf, hmsg, hle, ri, hri, hro, hwo, hread⟩ := hrep
  have hroom2 : ipc.msg_waiting < ipc.length := by rw [hmsg]; exact hroom
  have hwalt : (ri + model.length) % ipc.length < ipc.length := Nat.mod_lt _ hlen
  have hbound : ipc.write_off + x.length ≤ ipc.buf.length := by
    rw [hwo, hx, hbuf]
    exact slot_end_le _ ipc.length ipc.item_size hwalt
  have hret : (t_queue_send_try ipc x).1 = T_OK := by
    simp [t_queue_send_try, hstat, htype, hroom2]
  have hred : (t_queue_send_try ipc x).2.1 = { ipc with
      buf := writeBytes ipc.buf ipc.write_off x,
      write_off := if ipc.buf.length ≤ ipc.write_off + ipc.item_size then 0
        else ipc.write_off + ipc.item_size,
      msg_waiting := ipc.msg_waiting + 1,
      wait_list := ipc.wait_list.tail } := by
    simp [t_queue_send_try, hstat, htype, hroom2]
  refine ⟨hret, ?_⟩
  rw [hred]
  refine ⟨htype, hstat, hlen, hisz, ?_, ?_, ?_, ri, hri, hro, ?_, ?_⟩
  · show (writeBytes ipc.buf ipc.write_off x).length = _
    rw [writeBytes_length ipc.buf x ipc.write_off hbound, hbuf]
  · show ipc.msg_waiting + 1 = (model ++ [x]).length
    rw [hmsg]
    simp
  · show (model ++ [x]).length ≤ ipc.length
    simp
    omega
  · show (if ipc.buf.length ≤ ipc.write_off + ipc.item_size then 0
        else ipc.write_off + ipc.item_size)
      = ((ri + (model ++ [x]).length) % ipc.length) * ipc.item_size
    rw [hwo, hbuf, advance_off ipc.length ipc.item_size _ hisz hwalt]
    rw [Nat.mod_add_mod]
    have hl : (model ++ [x]).length = model.length + 1 := by simp
    rw [hl, ← Nat.add_assoc]
  · intro j hj
    simp only [List.length_append, List.length_singleton] at hj
    by_cases hjm : j = model.length
    · subst hjm
      have hgd : (model ++ [x]).getD model.length [] = x := by
        rw [List.getD_append_right _ _ _ _ (le_refl _)]
        simp
      rw [hgd]
      refine ⟨hx, ?_⟩
      show readBytes (writeBytes ipc.buf ipc.write_off x) _ _ = x
      rw [← hwo, ← hx]
      exact readBytes_writeBytes_self ipc.buf x ipc.write_off hbound
    · have hjlt : j < model.length := by omega
      have hjlen : j < ipc.length := by omega
      have hgd : (model ++ [x]).getD j [] = model.getD j [] :=
        List.getD_append _ _ _ _ hjlt
      rw [hgd]
      obtain ⟨hl1, hl2⟩ := hread j hjlt
      refine ⟨hl1, ?_⟩
      have hslots : (ri + j) % ipc.length ≠ (ri + model.length) % ipc.length := by
        intro hcontra
        exact hjm (mod_slot_inj ipc.length ri j model.length hjlen hroom hcontra)
      show readBytes (writeBytes ipc.buf ipc.write_off x) _ _ = _
      rcases Nat.lt_or_ge ((ri + j) % ipc.length) ((ri + model.length) % ipc.length)
        with hlt | hge
      · rw [readBytes_writeBytes_left ipc.buf x ipc.write_off _ _ ?_ hbound]
        · exact hl2
        · rw [hwo]
          exact slot_disjoint _ _ ipc.item_size hlt
      · have hgt : (ri + model.length) % ipc.length < (ri + j) % ipc.length :=
          Nat.lt_of_le_of_ne hge (fun hcontra => hslots hcontra.symm)
        rw [readBytes_writeBytes_right ipc.buf x ipc.write_off _ _ ?_ ?_]
        · exact hl2
        · rw [hwo, hx]
          exact slot_disjoint _ _ ipc.item_size hgt
        · rw [hwo, hbuf]
          calc ((ri + model.length) % ipc.length) * ipc.item_size
              ≤ ((ri + model.length) % ipc.length) * ipc.item_size + ipc.item_size :=
                Nat.le_add_right _ _
            _ ≤ ipc.length * ipc.item_size := slot_end_le _ _ _ hwalt

theorem qrecv_step (ipc : t_ipc) (m0 : List Nat) (mrest : List (List Nat))
    (hrep : QRep ipc (m0 :: mrest)) :
    (t_queue_recv_try ipc).1 = T_OK ∧
    (t_queue_recv_try ipc).2.2.1 = m0 ∧
    QRep (t_queue_recv_try ipc).2.1 mrest := by
  obtain ⟨htype, hstat, hlen, hisz, hbuf, hmsg, hle, ri, hri, hro, hwo, hread⟩ := hrep
  have hpos : 0 < ipc.msg_waiting := by rw [hmsg]; simp
  have hret : (t_queue_recv_try ipc).1 = T_OK := by
    simp [t_queue_recv_try, hstat, htype, hpos]
  have hitem : (t_queue_recv_try ipc).2.2.1
      = readBytes ipc.buf ipc.read_off ipc.item_size := by
    simp [t_queue_recv_try, hstat, htype, hpos]
  have hred : (t_queue_recv_try ipc).2.1 = { ipc with
      read_off := if ipc.buf.length ≤ ipc.read_off + ipc.item_size then 0
        else ipc.read_off + ipc.item_size,
      msg_waiting := ipc.msg_waiting - 1,
      wait_list := ipc.wait_list.tail } := by
    simp [t_queue_recv_try, hstat, htype, hpos]
  have hm0 : readBytes ipc.buf ipc.read_off ipc.item_size = m0 := by
    have h0 := hread 0 (by simp)
    rw [Nat.add_zero, Nat.mod_eq_of_lt hri] at h0
    rw [hro]
    simpa using h0.2
  refine ⟨hret, by rw [hitem, hm0], ?_⟩
  rw [hred]
  have hri2 : (ri + 1) % ipc.length < ipc.length := Nat.mod_lt _ hlen
  refine ⟨htype, hstat, hlen, hisz, hbuf, ?_, ?_, (ri + 1) % ipc.length, hri2,
    ?_, ?_, ?_⟩
  · show ipc.msg_waiting - 1 = mrest.length
    rw [hmsg]
    simp
  · show mrest.length ≤ ipc.length
    simp at hle
    omega
  · show (if ipc.buf.length ≤ ipc.read_off + ipc.item_size then 0
        else ipc.read_off + ipc.item_size) = (ri + 1) % ipc.length * ipc.item_size
    rw [hro, hbuf, advance_off ipc.length ipc.item_size ri hisz hri]
  · show ipc.write_off
      = ((ri + 1) % ipc.length + mrest.length) % ipc.length * ipc.item_size
    rw [hwo, Nat.mod_add_mod]
    have harr : ri + (m0 :: mrest).length = ri + 1 + mrest.length := by
      simp
      omega
    rw [harr]
  · intro j hj
    have hj2 : j + 1 < (m0 :: mrest).length := by simp; omega
    have h := hread (j + 1) hj2
    rw [List.getD_cons_succ] at h
    refine ⟨h.1, ?_⟩
    show readBytes ipc.buf (((ri + 1) % ipc.length + j) % ipc.length * ipc.item_size)
        ipc.item_size = mrest.getD j []
    rw [Nat.mod_add_mod]
    have harr : ri + 1 + j = ri + (j + 1) := by omega
    rw [harr]
    exact h.2

theorem qRun_outputs (ops : List QOp) : ∀ (ipc : t_ipc) (model : List (List Nat)),
    QRep ipc model → ValidQSeq ipc ops →
    qOutputs ipc ops = (model ++ qSends ops).take (qRecvCount ops) := by
  induction ops with
  | nil =>
    intro ipc model _ _
    simp [qOutputs, qSends, qRecvCount]
  | cons op rest ih =>
    intro ipc model hrep hV
    obtain ⟨hop, hV2⟩ := hV
    cases op with
    | send d =>
      obtain ⟨hd, hroom⟩ := hop
      have hmsg := hrep.2.2.2.2.2.1
      rw [hmsg] at hroom
      obtain ⟨hret, hrep2⟩ := qsend_step ipc model d hrep hd hroom
      simp only [qOutputs, qSends, qRecvCount, qStep]
      rw [ih _ _ hrep2 hV2]
      congr 1
      simp
    | recv =>
      have hmsg := hrep.2.2.2.2.2.1
      cases model with
      | nil =>
        have hpos : 0 < ipc.msg_waiting := hop
        rw [hmsg] at hpos
        simp at hpos
      | cons m0 mrest =>
        obtain ⟨hret, hitem, hrep2⟩ := qrecv_step ipc m0 mrest hrep
        simp only [qOutputs, qSends, qRecvCount, qStep]
        rw [hitem, ih _ _ hrep2 hV2]
        simp

/-- C5: starting from a queue freshly created over a pool of
queue_length * item_size bytes, along EVERY timeline of successful
t_queue_send / t_queue_recv calls (each send finds a free slot and passes
an item of item_size bytes, each recv finds a non-empty queue - i.e. the
fill count stays within [0, length]) the sequence of items delivered to
receivers is exactly the prefix of the sequence of sent items of length
equal to the number of receives: items arrive in send order, each one
byte-for-byte equal to what was sent (the write and read cursors wrap at
tail), and the number of items received never exceeds the number sent. -/
theorem t_queue_roundtrip_fifo (pool : List Nat) (len isz mode : Nat)
    (ops : List QOp) (hlen : 0 < len) (hisz : 0 < isz)
    (hpool : pool.length = len * isz)
    (hV : ValidQSeq (t_queue_create_static pool len isz mode) ops) :
    qOutputs (t_queue_create_static pool len isz mode) ops
      = (qSends ops).take (qRecvCount ops) ∧
    (qOutputs (t_queue_create_static pool len isz mode) ops).length
      ≤ (qSends ops).length := by
  have hrep : QRep (t_queue_create_static pool len isz mode) [] := by
    refine ⟨rfl, by simp [t_queue_create_static], hlen, hisz, hpool, rfl,
      by simp, 0, hlen, by simp [t_queue_create_static],
      by simp [t_queue_create_static], ?_⟩
    intro j hj
    simp at hj
  have h := qRun_outputs ops _ [] hrep hV
  simp only [List.nil_append] at h
  refine ⟨h, ?_⟩
  rw [h, List.length_take]
  exact Nat.min_le_right _ _

def qwPool : List Nat := [0, 0, 0, 0]

def qwOps : List QOp :=
  [QOp.send [1, 2], QOp.send [3, 4], QOp.recv, QOp.send [5, 6],
    QOp.recv, QOp.recv]

/-- Witness for C5: a 2-slot queue of 2-byte items, three sends and three
receives with a wrap of both cursors. -/
theorem t_queue_roundtrip_fifo_witness :
    qOutputs (t_queue_create_static qwPool 2 2 0) qwOps
      = (qSends qwOps).take (qRecvCount qwOps) ∧
    (qOutputs (t_queue_create_static qwPool 2 2 0) qwOps).length
      ≤ (qSends qwOps).length :=
  t_queue_roundtrip_fifo qwPool 2 2 0 qwOps (by decide) (by decide)
    (by decide) (by decide)

end ToRTOS
